import Mathlib

/-!
Shallow embedding of `src/python/federatedml/util/label_transform.py`
(the FATE label-transform component) and proofs of the specification
claims about it.

Conventions of the embedding:
* A Python label value (`int`, `float`, `str`) is `PyVal`; Python floats
  are modelled as exact rationals, and their textual form is the exact
  textual form of the rational (Python guarantees `float(str(x)) == x`,
  which is the only property of the float/str round trip the code uses).
* A Python dict is an association list; lookup takes the LAST binding of
  a key, matching insertion semantics of a dict built from a pair stream.
* Fallible Python code (KeyError, TypeError, ValueError, explicit
  `raise`) is an `Except String` computation.
* The distributed table exposes exactly what the code uses: `first()`
  (the head record) and `mapValues` (per-record mapping); keys and
  partitioning are untouched by `mapValues`, so the value sequence is
  modelled.
-/

instance {ε α : Type} [DecidableEq ε] [DecidableEq α] : DecidableEq (Except ε α) := fun x y =>
  match x, y with
  | .ok a, .ok b =>
      if h : a = b then isTrue (by rw [h])
      else isFalse (by intro he; cases he; exact h rfl)
  | .error e, .error f =>
      if h : e = f then isTrue (by rw [h])
      else isFalse (by intro he; cases he; exact h rfl)
  | .ok _, .error _ => isFalse (by intro h; cases h)
  | .error _, .ok _ => isFalse (by intro h; cases h)

/-- A Python primitive label value: integer, floating point (modelled as an
exact rational) or text. -/
inductive PyVal where
  | pyInt (n : Int)
  | pyFloat (q : Rat)
  | pyStr (s : String)
deriving DecidableEq, Repr

/-- Python `type(v).__name__` for a label value. -/
def typeName : PyVal → String
  | .pyInt _ => "int"
  | .pyFloat _ => "float"
  | .pyStr _ => "str"

/-- Python `str(v)`: the textual form of a value.  For floats this is the
exact textual form of the rational (see the module comment). -/
def pyStrOf : PyVal → String
  | .pyInt n => toString n
  | .pyFloat q => toString q
  | .pyStr s => s

def digitVal (c : Char) : Nat := c.toNat - 48

/-- Parse a nonempty all-digit character list as a natural number. -/
def parseDigits (l : List Char) : Option Nat :=
  if l ≠ [] ∧ l.all Char.isDigit then
    some (l.foldl (fun a c => a * 10 + digitVal c) 0)
  else none

/-- Typed integer parse of a string (the `np.int`/`np.int64`/`np.long`
constructor applied to a string): optional sign followed by digits. -/
def parseIntString (s : String) : Option Int :=
  match s.data with
  | '-' :: rest => (parseDigits rest).map (fun n => -(n : Int))
  | l => (parseDigits l).map (fun n => (n : Int))

/-- Unsigned part of the typed float parse: either `a/b` (the textual form
`pyStrOf` gives a non-integral rational), `a.b`, or plain digits. -/
def parseUnsignedFloat (l : List Char) : Option Rat :=
  match l.splitOn '/' with
  | [ip, fp] =>
      match parseDigits ip, parseDigits fp with
      | some a, some b => if b = 0 then none else some ((a : Rat) / (b : Rat))
      | _, _ => none
  | _ =>
    match l.splitOn '.' with
    | [ip] => (parseDigits ip).map (fun n => (n : Rat))
    | [ip, fp] =>
        match parseDigits ip, parseDigits fp with
        | some a, some b => some ((a : Rat) + (b : Rat) / ((10 : Rat) ^ fp.length))
        | _, _ => none
    | _ => none

/-- Typed float parse of a string (the `np.float`-family constructor applied
to a string). -/
def parseFloatString (s : String) : Option Rat :=
  match s.data with
  | '-' :: rest => (parseUnsignedFloat rest).map (fun q => -q)
  | l => parseUnsignedFloat l

/-- `np.int`-family constructor on an arbitrary value: identity on integers,
truncation toward zero on floats, typed parse on strings (`none` models the
`ValueError` of an unparsable literal). -/
def npIntOf : PyVal → Option Int
  | .pyInt n => some n
  | .pyFloat q => some (q.num.tdiv (q.den : Int))
  | .pyStr s => parseIntString s

/-- `np.float`-family constructor on an arbitrary value. -/
def npFloatOf : PyVal → Option Rat
  | .pyInt n => some ((n : Int) : Rat)
  | .pyFloat q => some q
  | .pyStr s => parseFloatString s

def intTags : List String := ["int", "int64", "long"]
def floatTags : List String := ["float", "float64", "double"]
def textTags : List String := ["str", "_str"]

/-- All type tags `load_value_to_type` recognizes. -/
def recognizedTags : List String := intTags ++ floatTags ++ textTags

/-- The non-`None` case of `load_value_to_type`: dispatch on the recorded
type tag, routing integer/float tags through the typed numeric constructor
and text tags through `str`; an unknown tag raises. -/
def loadTyped (value : PyVal) (value_type : String) : Except String PyVal :=
  if value_type ∈ intTags then
    match npIntOf value with
    | some n => .ok (.pyInt n)
    | none => .error ("invalid literal for int: " ++ pyStrOf value)
  else if value_type ∈ floatTags then
    match npFloatOf value with
    | some q => .ok (.pyFloat q)
    | none => .error ("could not convert string to float: " ++ pyStrOf value)
  else if value_type ∈ textTags then .ok (.pyStr (pyStrOf value))
  else .error ("unknown value type: " ++ value_type)

/-- `load_value_to_type(value, value_type)`: `None` passes through before
any tag dispatch; any other value goes through `loadTyped`. -/
def load_value_to_type (value : Option PyVal) (value_type : String) :
    Except String (Option PyVal) :=
  match value with
  | none => .ok none
  | some v => (loadTyped v value_type).map some

/-- A Python dict of label values, as its insertion-ordered pair list. -/
abbrev Dict := List (PyVal × PyVal)

/-- Dict lookup (last binding of the key wins, as in a dict built by
successive insertion from a pair stream). -/
def dictGet : Dict → PyVal → Option PyVal
  | [], _ => none
  | p :: rest, k =>
    match dictGet rest k with
    | some v => some v
    | none => if p.1 = k then some p.2 else none

/-- Lookup in a string-keyed dict (the type-tag side maps). -/
def strDictGet : List (String × String) → String → Option String
  | [], _ => none
  | p :: rest, k =>
    match strDictGet rest k with
    | some v => some v
    | none => if p.1 = k then some p.2 else none

/-- Python `d[k]`: a missing key raises `KeyError`. -/
def orKeyError (o : Option PyVal) : Except String PyVal :=
  match o with
  | some v => .ok v
  | none => .error "KeyError"

def orKeyErrorStr (o : Option String) : Except String String :=
  match o with
  | some v => .ok v
  | none => .error "KeyError"

/-- `dict(zip(d.values(), d.keys()))`: the encoder with keys and values
swapped (the Inverse direction map). -/
def swapDict (d : Dict) : Dict := d.map (fun p => (p.2, p.1))

/-- Distinct elements of a list, first occurrence kept (the key set of the
`label_count` dict / the discovered label set). -/
def distinctFirstSeen (l : List PyVal) : List PyVal :=
  l.foldl (fun acc a => if a ∈ acc then acc else acc ++ [a]) []

/-- Lexicographic order on character lists by Unicode code point, the order
Python uses to compare strings. -/
def charListLE : List Char → List Char → Bool
  | [], _ => true
  | _ :: _, [] => false
  | a :: s, b :: t =>
    if a.toNat = b.toNat then charListLE s t else decide (a.toNat < b.toNat)

def strLEb (s t : String) : Bool := charListLE s.data t.data

/-- Python comparison `a <= b` on label values: numbers compare by numeric
value, strings lexicographically.  (A number/text comparison raises in
Python; the sort guard `comparablePop` rules that case out before this
order is consulted.) -/
def pyLEb (a b : PyVal) : Bool :=
  match a, b with
  | .pyStr s, .pyStr t => strLEb s t
  | .pyStr _, _ => false
  | .pyInt n, .pyInt m => n ≤ m
  | .pyInt n, .pyFloat q => (n : Rat) ≤ q
  | .pyFloat q, .pyInt n => q ≤ (n : Rat)
  | .pyFloat q, .pyFloat r => q ≤ r
  | _, .pyStr _ => true

/-- Insert into a `pyLEb`-sorted list, keeping it sorted. -/
def insertSorted (a : PyVal) : List PyVal → List PyVal
  | [] => [a]
  | b :: l => if pyLEb a b then a :: b :: l else b :: insertSorted a l

/-- Python `sorted` on label values (a stable comparison sort; on the
duplicate-free lists it is applied to, any comparison sort agrees). -/
def pySorted (l : List PyVal) : List PyVal := l.foldr insertSorted []

def isNum : PyVal → Bool
  | .pyInt _ => true
  | .pyFloat _ => true
  | .pyStr _ => false

def isText : PyVal → Bool
  | .pyStr _ => true
  | _ => false

/-- Whether Python can sort this label population: all numeric or all
text; a mixed number/text population raises `TypeError` when compared. -/
def comparablePop (ls : List PyVal) : Bool := ls.all isNum || ls.all isText

/-- `sorted(<distinct labels>)`: deduplicate, then sort; a mixed
number/text population raises. -/
def sortLabels (ls : List PyVal) : Except String (List PyVal) :=
  if comparablePop ls then .ok (pySorted (distinctFirstSeen ls))
  else .error "TypeError: comparison not supported between str and number"

/-- `dict(zip(labels, range(len(labels))))`: the discovered encoder, pairing
each label with its index. -/
def enumEncoder (ls : List PyVal) : Dict :=
  ls.enum.map (fun p => (p.2, PyVal.pyInt (p.1 : Int)))

example : sortLabels [.pyStr "dog", .pyStr "cat", .pyStr "fish", .pyStr "cat"] =
    .ok [.pyStr "cat", .pyStr "dog", .pyStr "fish"] := by decide

example : enumEncoder [.pyStr "cat", .pyStr "dog", .pyStr "fish"] =
    [(.pyStr "cat", .pyInt 0), (.pyStr "dog", .pyInt 1), (.pyStr "fish", .pyInt 2)] := by decide

/-- Modelled from the spec: a TrainingRecord (`federatedml.feature.instance.Instance`,
not under `src/`) "carries a mutable label field plus feature payload". -/
structure Instance where
  features : List Rat
  label : PyVal
deriving DecidableEq, Repr

/-- The prediction-result 4-tuple
`[true_label, predict_label, predict_score, predict_detail]`, with
`predict_detail` a dict from label to score. -/
structure PredictResult where
  true_label : PyVal
  predict_label : PyVal
  predict_score : Rat
  predict_detail : List (PyVal × Rat)
deriving DecidableEq, Repr

/-- One record of a dataset: an `Instance` or a prediction-result tuple. -/
inductive Record where
  | inst (i : Instance)
  | pred (p : PredictResult)
deriving DecidableEq, Repr

/-- The distributed table as the component sees it: its value sequence (keys
and partitioning are untouched by `mapValues`) plus its schema attribute. -/
structure DTable where
  rows : List Record
  schema : String
deriving DecidableEq, Repr

/-- `isinstance(data.first()[1], Instance)`. -/
def firstIsInstance (d : DTable) : Bool :=
  match d.rows.head? with
  | some (Record.inst _) => true
  | _ => false

/-- `data.mapValues(f)` for a per-record function that may raise: the first
raise aborts the whole job. -/
def mapValuesE (f : α → Except String β) : List α → Except String (List β)
  | [] => .ok []
  | a :: l => do
    let b ← f a
    let bs ← mapValuesE f l
    .ok (b :: bs)

/-- Modelled from the spec: `get_label_count` (from
`federatedml.statistic.data_overview`, not under `src/`) tallies the label
field values across all records; its key set is the distinct label set.
Reading `.label` off a non-Instance record raises. -/
def instanceLabel : Record → Except String PyVal
  | .inst i => .ok i.label
  | .pred _ => .error "AttributeError: object has no attribute label"

/-- Modelled from the spec: `get_predict_result_labels` (from
`federatedml.statistic.data_overview`, not under `src/`) gathers the union
of `true_label`, `predicted_label` and every `predicted_detail` key across
all records. -/
def predictRecordLabels : Record → Except String (List PyVal)
  | .pred p => .ok (p.true_label :: p.predict_label :: p.predict_detail.map Prod.fst)
  | .inst _ => .error "TypeError: Instance is not a predict result"

/-- The raw label population of a dataset, per the record kind of its first
record (the discovery scan of `get_label_encoder`). -/
def datasetLabels (d : DTable) : Except String (List PyVal) :=
  if firstIsInstance d then mapValuesE instanceLabel d.rows
  else (mapValuesE predictRecordLabels d.rows).map List.flatten

/-- The mutable state of a `LabelTransformer` component instance. -/
structure LabelTransformer where
  label_encoder : Option Dict
  label_list : Option (List PyVal)
  need_run : Bool
  encoder_key_type : Option (List (String × String))
  encoder_value_type : Option (List (String × String))
deriving DecidableEq, Repr

/-- A fresh component whose `_init_model` received `need_run=True` and no
explicit `label_encoder`/`label_list`. -/
def initState : LabelTransformer :=
  { label_encoder := none, label_list := none, need_run := true,
    encoder_key_type := none, encoder_value_type := none }

/-- The type-tag side map of a value list: stringified value to the name of
its concrete primitive type. -/
def typeMapOf (vs : List PyVal) : List (String × String) :=
  vs.map (fun v => (pyStrOf v, typeName v))

/-- `LabelTransformer.get_label_encoder(data)`: keep a provided encoder
(deriving key tags from `label_list` when given), otherwise discover the
sorted distinct labels and enumerate them; then record the type-tag side
maps and re-type the encoder keys through `load_value_to_type`.  Returns
the updated component state and the returned encoder. -/
def LabelTransformer.get_label_encoder (self : LabelTransformer) (data : DTable) :
    Except String (LabelTransformer × Dict) := do
  let (self1, enc0) ←
    match self.label_encoder with
    | some e =>
        let kt :=
          match self.label_list with
          | some ll => some (typeMapOf ll)
          | none => self.encoder_key_type
        Except.ok ({ self with encoder_key_type := kt }, e)
    | none => do
        let labels ← datasetLabels data
        let sorted ← sortLabels labels
        let e := enumEncoder sorted
        Except.ok ({ self with label_encoder := some e }, e)
  let kt :=
    match self1.encoder_key_type with
    | none => typeMapOf (enc0.map Prod.fst)
    | some m => m
  let vt := enc0.map (fun p => (pyStrOf p.1, typeName p.2))
  let enc ← mapValuesE (fun p => do
      let tag ← orKeyErrorStr (strDictGet kt (pyStrOf p.1))
      let k ← loadTyped p.1 tag
      Except.ok (k, p.2)) enc0
  Except.ok ({ self1 with encoder_key_type := some kt, encoder_value_type := some vt }, enc)

/-- `LabelTransformer.replace_instance_label`: copy the record and replace
its label through the active map; a missing key raises `KeyError`. -/
def replace_instance_label (inst : Instance) (label_encoder : Dict) :
    Except String Instance := do
  let new_label ← orKeyError (dictGet label_encoder inst.label)
  Except.ok { inst with label := new_label }

/-- One item of the `predict_detail` rebuild: remap the key through the
active map, keep the score. -/
def replaceDetailPair (label_encoder : Dict) (p : PyVal × Rat) :
    Except String (PyVal × Rat) := do
  let k ← orKeyError (dictGet label_encoder p.1)
  Except.ok (k, p.2)

/-- `LabelTransformer.replace_predict_label`: copy the tuple, remap
`true_label` and `predict_label`, rebuild `predict_detail` by remapping
every key while keeping each score; a missing key raises `KeyError`. -/
def replace_predict_label (predict_result : PredictResult) (label_encoder : Dict) :
    Except String PredictResult := do
  let true_label ← orKeyError (dictGet label_encoder predict_result.true_label)
  let predict_label ← orKeyError (dictGet label_encoder predict_result.predict_label)
  let predict_detail ← mapValuesE (replaceDetailPair label_encoder)
      predict_result.predict_detail
  Except.ok { true_label := true_label, predict_label := predict_label,
              predict_score := predict_result.predict_score,
              predict_detail := predict_detail }

/-- Per-record dispatch inside `transform_data_label`: a record of the wrong
shape for the sampled kind raises, as the Python attribute access/unpacking
would. -/
def replaceRecordInst (label_encoder : Dict) : Record → Except String Record
  | .inst i => (replace_instance_label i label_encoder).map Record.inst
  | .pred _ => .error "AttributeError: object has no attribute label"

def replaceRecordPred (label_encoder : Dict) : Record → Except String Record
  | .pred p => (replace_predict_label p label_encoder).map Record.pred
  | .inst _ => .error "TypeError: cannot unpack Instance"

/-- `LabelTransformer.transform_data_label(data, label_encoder)`: sample the
first record for its kind, then rewrite every record with the matching
per-record function. -/
def transform_data_label (data : DTable) (label_encoder : Dict) :
    Except String (List Record) :=
  if firstIsInstance data then mapValuesE (replaceRecordInst label_encoder) data.rows
  else mapValuesE (replaceRecordPred label_encoder) data.rows

/-- `LabelTransformer.transform(data)`: require an encoder; invert it when
the first record is not an `Instance` (predict result); rewrite every
record; copy the schema onto the result. -/
def LabelTransformer.transform (self : LabelTransformer) (data : DTable) :
    Except String DTable :=
  match self.label_encoder with
  | none => .error "Input Label Encoder is None. Label Transform aborted."
  | some enc =>
      let label_encoder := if firstIsInstance data then enc else swapDict enc
      (transform_data_label data label_encoder).map
        (fun rows => { data with rows := rows })

/-- `LabelTransformer.fit(data)`: build (or keep) the encoder via
`get_label_encoder`, store it, rewrite the data through it (the Forward
direction, whatever the record kind), copy the schema. -/
def LabelTransformer.fit (self : LabelTransformer) (data : DTable) :
    Except String (LabelTransformer × DTable) := do
  let (self1, enc) ← self.get_label_encoder data
  let self2 := { self1 with label_encoder := some enc }
  let rows ← transform_data_label data enc
  Except.ok (self2, { data with rows := rows })

/-- The persisted `LabelTransformParam` record: fully textual encoder plus
the two type-tag side maps. -/
structure LabelTransformParamPb where
  label_encoder : List (String × String)
  encoder_key_type : List (String × String)
  encoder_value_type : List (String × String)
deriving DecidableEq, Repr

/-- The persisted `LabelTransformMeta` record. -/
structure LabelTransformMetaPb where
  need_run : Bool
deriving DecidableEq, Repr

/-- `LabelTransformer._get_meta()`. -/
def LabelTransformer.getMeta (self : LabelTransformer) : LabelTransformMetaPb :=
  { need_run := self.need_run }

/-- Python `for k, v in x` applied to one element yielded by iterating a
DICT: iteration yields the dict's KEYS, and each key is unpacked as a
2-sequence.  A number key is not iterable (`TypeError`); a string key
unpacks into its characters and must have exactly two (`ValueError`). -/
def iterUnpack2 : PyVal → Except String (PyVal × PyVal)
  | .pyStr s =>
      match s.data with
      | [a, b] => .ok (.pyStr (String.mk [a]), .pyStr (String.mk [b]))
      | [] => .error "ValueError: not enough values to unpack"
      | [_] => .error "ValueError: not enough values to unpack"
      | _ => .error "ValueError: too many values to unpack"
  | .pyInt _ => .error "TypeError: cannot unpack non-iterable int object"
  | .pyFloat _ => .error "TypeError: cannot unpack non-iterable float object"

/-- `LabelTransformer._get_param()`: as written, the comprehension is
`{str(k): str(v) for k, v in self.label_encoder}` — it iterates the dict
itself (its keys), not `.items()`, so each KEY is unpacked as `k, v`. -/
def LabelTransformer.getParam (self : LabelTransformer) :
    Except String LabelTransformParamPb := do
  let enc ← match self.label_encoder with
    | some e => Except.ok e
    | none => Except.error "TypeError: NoneType object is not iterable"
  let pairs ← mapValuesE iterUnpack2 (enc.map Prod.fst)
  Except.ok {
    label_encoder := pairs.map (fun p => (pyStrOf p.1, pyStrOf p.2)),
    encoder_key_type := self.encoder_key_type.getD [],
    encoder_value_type := self.encoder_value_type.getD [] }

/-- `LabelTransformer.export_model()`: the meta and param records. -/
def LabelTransformer.export_model (self : LabelTransformer) :
    Except String (LabelTransformMetaPb × LabelTransformParamPb) := do
  let param ← self.getParam
  Except.ok (self.getMeta, param)

/-- `LabelTransformer.load_model(model_dict)`, applied to the meta and param
records: restore `need_run` and the tag maps, and rebuild the encoder by
parsing each persisted string through its recorded tag (the value tag is
looked up under the KEY, as in the source).  `loadEncoderEntry` is one entry
of the comprehension rebuilding `label_encoder`. -/
def loadEncoderEntry (param : LabelTransformParamPb) (p : String × String) :
    Except String (PyVal × PyVal) := do
  let ktag ← orKeyErrorStr (strDictGet param.encoder_key_type p.1)
  let k ← loadTyped (.pyStr p.1) ktag
  let vtag ← orKeyErrorStr (strDictGet param.encoder_value_type p.1)
  let v ← loadTyped (.pyStr p.2) vtag
  Except.ok (k, v)

def LabelTransformer.load_model (self : LabelTransformer)
    (meta : LabelTransformMetaPb) (param : LabelTransformParamPb) :
    Except String LabelTransformer := do
  let enc ← mapValuesE (loadEncoderEntry param) param.label_encoder
  Except.ok { self with
    need_run := meta.need_run,
    encoder_key_type := some param.encoder_key_type,
    encoder_value_type := some param.encoder_value_type,
    label_encoder := some enc }

/-! ### Order lemmas for the label sort -/

lemma charListLE_cons (a b : Char) (s t : List Char) :
    charListLE (a :: s) (b :: t) =
      if a.toNat = b.toNat then charListLE s t else decide (a.toNat < b.toNat) := rfl

lemma charListLE_total : ∀ s t, charListLE s t = true ∨ charListLE t s = true := by
  intro s
  induction s with
  | nil => intro t; left; cases t <;> rfl
  | cons a s ih =>
    intro t
    cases t with
    | nil => right; rfl
    | cons b t' =>
      by_cases hab : a.toNat = b.toNat
      · rcases ih t' with h | h
        · left; rw [charListLE_cons, if_pos hab]; exact h
        · right; rw [charListLE_cons, if_pos hab.symm]; exact h
      · rcases Nat.lt_or_ge a.toNat b.toNat with h | h
        · left; rw [charListLE_cons, if_neg hab]; exact decide_eq_true h
        · have hba : ¬ b.toNat = a.toNat := fun e => hab e.symm
          have hlt : b.toNat < a.toNat := Nat.lt_of_le_of_ne h hba
          right; rw [charListLE_cons, if_neg hba]; exact decide_eq_true hlt

lemma char_eq_of_toNat_eq {a b : Char} (h : a.toNat = b.toNat) : a = b :=
  Char.ext (UInt32.toNat.inj h)

lemma charListLE_antisymm : ∀ s t, charListLE s t = true → charListLE t s = true → s = t := by
  intro s
  induction s with
  | nil =>
    intro t h1 h2
    cases t with
    | nil => rfl
    | cons b t' => exact absurd h2 (by simp [charListLE])
  | cons a s ih =>
    intro t h1 h2
    cases t with
    | nil => exact absurd h1 (by simp [charListLE])
    | cons b t' =>
      by_cases hab : a.toNat = b.toNat
      · rw [charListLE_cons, if_pos hab] at h1
        rw [charListLE_cons, if_pos hab.symm] at h2
        rw [char_eq_of_toNat_eq hab, ih t' h1 h2]
      · have hba : ¬ b.toNat = a.toNat := fun e => hab e.symm
        rw [charListLE_cons, if_neg hab] at h1
        rw [charListLE_cons, if_neg hba] at h2
        exact absurd (of_decide_eq_true h1) (Nat.lt_asymm (of_decide_eq_true h2))

lemma charListLE_trans :
    ∀ s t u, charListLE s t = true → charListLE t u = true → charListLE s u = true := by
  intro s
  induction s with
  | nil => intro t u _ _; cases u <;> rfl
  | cons a s ih =>
    intro t u h1 h2
    cases t with
    | nil => exact absurd h1 (by simp [charListLE])
    | cons b t' =>
      cases u with
      | nil => exact absurd h2 (by simp [charListLE])
      | cons c u' =>
        by_cases hab : a.toNat = b.toNat
        · by_cases hbc : b.toNat = c.toNat
          · rw [charListLE_cons, if_pos hab] at h1
            rw [charListLE_cons, if_pos hbc] at h2
            rw [charListLE_cons, if_pos (hab.trans hbc)]
            exact ih t' u' h1 h2
          · rw [charListLE_cons, if_neg hbc] at h2
            have hac : a.toNat < c.toNat := hab ▸ of_decide_eq_true h2
            rw [charListLE_cons, if_neg (fun e => hbc (hab.symm.trans e))]
            exact decide_eq_true hac
        · rw [charListLE_cons, if_neg hab] at h1
          have h1' := of_decide_eq_true h1
          by_cases hbc : b.toNat = c.toNat
          · have hac : a.toNat < c.toNat := hbc ▸ h1'
            rw [charListLE_cons, if_neg (fun e => hab (e.trans hbc.symm))]
            exact decide_eq_true hac
          · rw [charListLE_cons, if_neg hbc] at h2
            have hac : a.toNat < c.toNat := Nat.lt_trans h1' (of_decide_eq_true h2)
            rw [charListLE_cons, if_neg (Nat.ne_of_lt hac)]
            exact decide_eq_true hac

lemma str_eq_of_data_eq {s t : String} (h : s.data = t.data) : s = t := by
  cases s; cases t; exact congrArg String.mk h

lemma pyLEb_total (a b : PyVal) : pyLEb a b = true ∨ pyLEb b a = true := by
  cases a <;> cases b <;> simp [pyLEb, strLEb]
  case pyInt.pyInt n m => exact Int.le_total n m
  case pyInt.pyFloat n q => exact le_total ((n : Rat)) q
  case pyFloat.pyInt q n => exact le_total q ((n : Rat))
  case pyFloat.pyFloat q r => exact le_total q r
  case pyStr.pyStr s t => exact charListLE_total s.data t.data

lemma pyLEb_trans (a b c : PyVal)
    (h1 : pyLEb a b = true) (h2 : pyLEb b c = true) : pyLEb a c = true := by
  cases a <;> cases b <;> cases c <;> simp [pyLEb, strLEb] at h1 h2 ⊢ <;>
    try exact le_trans h1 h2
  case pyInt.pyInt.pyFloat n m q =>
    exact le_trans (by exact_mod_cast h1) h2
  case pyInt.pyFloat.pyInt n q m =>
    exact_mod_cast le_trans h1 h2
  case pyFloat.pyInt.pyInt q n m =>
    exact le_trans h1 (by exact_mod_cast h2)
  case pyStr.pyStr.pyStr s t u =>
    exact charListLE_trans _ _ _ h1 h2

lemma pyLEb_antisymm_of_same_type (a b : PyVal) (ht : typeName a = typeName b)
    (h1 : pyLEb a b = true) (h2 : pyLEb b a = true) : a = b := by
  cases a <;> cases b <;> simp [typeName] at ht <;> simp [pyLEb, strLEb] at h1 h2
  case pyInt.pyInt n m => rw [Int.le_antisymm h1 h2]
  case pyFloat.pyFloat q r => rw [le_antisymm h1 h2]
  case pyStr.pyStr s t => rw [str_eq_of_data_eq (charListLE_antisymm _ _ h1 h2)]

lemma insertSorted_perm (a : PyVal) (l : List PyVal) :
    (insertSorted a l).Perm (a :: l) := by
  induction l with
  | nil => simp [insertSorted]
  | cons b t ih =>
    by_cases h : pyLEb a b = true
    · simp [insertSorted, h]
    · simp only [insertSorted, if_neg h]
      exact (ih.cons b).trans (List.Perm.swap a b t)

lemma insertSorted_pairwise (a : PyVal) (l : List PyVal)
    (h : List.Pairwise (fun x y => pyLEb x y = true) l) :
    List.Pairwise (fun x y => pyLEb x y = true) (insertSorted a l) := by
  induction l with
  | nil => simp [insertSorted]
  | cons b t ih =>
    rcases List.pairwise_cons.mp h with ⟨hb, ht⟩
    by_cases hab : pyLEb a b = true
    · rw [insertSorted, if_pos hab]
      refine List.pairwise_cons.mpr ⟨?_, h⟩
      intro x hx
      rcases List.mem_cons.mp hx with rfl | hx
      · exact hab
      · exact pyLEb_trans a b x hab (hb x hx)
    · rw [insertSorted, if_neg hab]
      refine List.pairwise_cons.mpr ⟨?_, ih ht⟩
      intro x hx
      rcases List.mem_cons.mp ((insertSorted_perm a t).subset hx) with hxa | hx
      · rw [hxa]
        rcases pyLEb_total a b with h' | h'
        · exact absurd h' hab
        · exact h'
      · exact hb x hx

lemma pySorted_perm (l : List PyVal) : (pySorted l).Perm l := by
  induction l with
  | nil => exact List.Perm.refl []
  | cons a t ih =>
    exact (insertSorted_perm a (pySorted t)).trans (ih.cons a)

lemma pySorted_pairwise (l : List PyVal) :
    List.Pairwise (fun x y => pyLEb x y = true) (pySorted l) := by
  induction l with
  | nil => exact List.Pairwise.nil
  | cons a t ih => exact insertSorted_pairwise a (pySorted t) ih

lemma sorted_perm_eq : ∀ (l₁ l₂ : List PyVal),
    List.Pairwise (fun x y => pyLEb x y = true) l₁ →
    List.Pairwise (fun x y => pyLEb x y = true) l₂ →
    l₁.Perm l₂ →
    (∀ a ∈ l₁, ∀ b ∈ l₁, pyLEb a b = true → pyLEb b a = true → a = b) →
    l₁ = l₂ := by
  intro l₁
  induction l₁ with
  | nil =>
    intro l₂ _ _ hp _
    exact hp.nil_eq
  | cons a t₁ ih =>
    intro l₂ h₁ h₂ hp hanti
    cases l₂ with
    | nil => exact absurd hp.symm.nil_eq (by simp)
    | cons b t₂ =>
      have hab : a = b := by
        by_cases heq : a = b
        · exact heq
        · have hbt₁ : b ∈ t₁ := by
            rcases List.mem_cons.mp (hp.symm.subset (List.mem_cons_self b t₂)) with h | h
            · exact absurd h.symm heq
            · exact h
          have hat₂ : a ∈ t₂ := by
            rcases List.mem_cons.mp (hp.subset (List.mem_cons_self a t₁)) with h | h
            · exact absurd h heq
            · exact h
          have h_ab : pyLEb a b = true := (List.pairwise_cons.mp h₁).1 b hbt₁
          have h_ba : pyLEb b a = true := (List.pairwise_cons.mp h₂).1 a hat₂
          exact hanti a (List.mem_cons_self a t₁) b (List.mem_cons_of_mem a hbt₁) h_ab h_ba
      subst hab
      have hpt : t₁.Perm t₂ := hp.cons_inv
      rw [ih t₂ (List.pairwise_cons.mp h₁).2 (List.pairwise_cons.mp h₂).2 hpt
        (fun x hx y hy => hanti x (List.mem_cons_of_mem a hx) y (List.mem_cons_of_mem a hy))]

lemma distinctAux_nodup : ∀ (l acc : List PyVal), acc.Nodup →
    (l.foldl (fun acc a => if a ∈ acc then acc else acc ++ [a]) acc).Nodup := by
  intro l
  induction l with
  | nil => intro acc h; exact h
  | cons a t ih =>
    intro acc h
    simp only [List.foldl_cons]
    by_cases ha : a ∈ acc
    · rw [if_pos ha]; exact ih acc h
    · rw [if_neg ha]
      refine ih _ ?_
      simp [List.nodup_append, h, ha]

lemma distinctAux_mem : ∀ (l acc : List PyVal) (x : PyVal),
    x ∈ l.foldl (fun acc a => if a ∈ acc then acc else acc ++ [a]) acc ↔
      x ∈ acc ∨ x ∈ l := by
  intro l
  induction l with
  | nil => intro acc x; simp
  | cons a t ih =>
    intro acc x
    simp only [List.foldl_cons]
    by_cases ha : a ∈ acc
    · rw [if_pos ha, ih]
      constructor
      · rintro (h | h)
        · exact Or.inl h
        · exact Or.inr (List.mem_cons_of_mem a h)
      · rintro (h | h)
        · exact Or.inl h
        · rcases List.mem_cons.mp h with rfl | h
          · exact Or.inl ha
          · exact Or.inr h
    · rw [if_neg ha, ih]
      simp [List.mem_append, List.mem_cons, or_assoc]

lemma distinctFirstSeen_nodup (l : List PyVal) : (distinctFirstSeen l).Nodup :=
  distinctAux_nodup l [] List.nodup_nil

lemma mem_distinctFirstSeen (l : List PyVal) (x : PyVal) :
    x ∈ distinctFirstSeen l ↔ x ∈ l := by
  rw [distinctFirstSeen, distinctAux_mem]
  simp

/-! ### Except and mapValuesE lemmas -/

lemma except_bind_ok {ε α β : Type} (a : α) (f : α → Except ε β) :
    (Except.ok a >>= f) = f a := rfl

lemma except_bind_error {ε α β : Type} (e : ε) (f : α → Except ε β) :
    ((Except.error e : Except ε α) >>= f) = Except.error e := rfl

lemma except_error_of_not_ok {ε α : Type} {x : Except ε α}
    (h : ∀ b, x ≠ Except.ok b) : ∃ e, x = Except.error e := by
  cases x with
  | error e => exact ⟨e, rfl⟩
  | ok b => exact absurd rfl (h b)

lemma mapValuesE_ok_forall₂ {α β : Type} {f : α → Except String β} :
    ∀ {l : List α} {out : List β}, mapValuesE f l = Except.ok out →
      List.Forall₂ (fun a b => f a = Except.ok b) l out := by
  intro l
  induction l with
  | nil =>
    intro out h
    simp only [mapValuesE] at h
    cases h
    exact List.Forall₂.nil
  | cons a t ih =>
    intro out h
    simp only [mapValuesE] at h
    cases hfa : f a with
    | error e => rw [hfa, except_bind_error] at h; cases h
    | ok b =>
      rw [hfa, except_bind_ok] at h
      cases hft : mapValuesE f t with
      | error e => rw [hft, except_bind_error] at h; cases h
      | ok bs =>
        rw [hft, except_bind_ok] at h
        cases h
        exact List.Forall₂.cons hfa (ih hft)

lemma mapValuesE_of_forall₂ {α β : Type} {f : α → Except String β} :
    ∀ {l : List α} {out : List β},
      List.Forall₂ (fun a b => f a = Except.ok b) l out →
      mapValuesE f l = Except.ok out := by
  intro l out h
  induction h with
  | nil => rfl
  | cons hab _ ih =>
    simp only [mapValuesE]
    rw [hab, except_bind_ok, ih, except_bind_ok]

lemma mapValuesE_id {α : Type} {f : α → Except String α} {l : List α}
    (h : ∀ a ∈ l, f a = Except.ok a) : mapValuesE f l = Except.ok l := by
  induction l with
  | nil => rfl
  | cons a t ih =>
    simp only [mapValuesE]
    rw [h a (List.mem_cons_self a t), except_bind_ok,
      ih (fun x hx => h x (List.mem_cons_of_mem a hx)), except_bind_ok]

lemma mapValuesE_ok_of_mem {α β : Type} {f : α → Except String β} :
    ∀ {l : List α} {out : List β} {a : α}, mapValuesE f l = Except.ok out →
      a ∈ l → ∃ b, f a = Except.ok b := by
  intro l
  induction l with
  | nil => intro out a _ ha; cases ha
  | cons x t ih =>
    intro out a h ha
    simp only [mapValuesE] at h
    cases hfx : f x with
    | error e => rw [hfx, except_bind_error] at h; cases h
    | ok b =>
      rw [hfx, except_bind_ok] at h
      cases hft : mapValuesE f t with
      | error e => rw [hft, except_bind_error] at h; cases h
      | ok bs =>
        rcases List.mem_cons.mp ha with hax | hat
        · exact ⟨b, hax ▸ hfx⟩
        · exact ih hft hat

lemma forall₂_snd_eq {enc : Dict} :
    ∀ {d out : List (PyVal × Rat)},
      List.Forall₂ (fun p q => dictGet enc p.1 = some q.1 ∧ q.2 = p.2) d out →
      out.map Prod.snd = d.map Prod.snd := by
  intro d out h
  induction h with
  | nil => rfl
  | cons hpq _ ih => simp [ih, hpq.2]

/-! ### Dict lookup lemmas -/

lemma dictGet_eq_none_iff (d : Dict) (k : PyVal) :
    dictGet d k = none ↔ k ∉ d.map Prod.fst := by
  induction d with
  | nil => simp [dictGet]
  | cons p rest ih =>
    constructor
    · intro h
      simp only [dictGet] at h
      cases hr : dictGet rest k with
      | some v => rw [hr] at h; cases h
      | none =>
        rw [hr] at h
        by_cases hk : p.1 = k
        · rw [if_pos hk] at h; cases h
        · simp only [List.map_cons, List.mem_cons]
          rintro (h1 | h2)
          · exact hk h1.symm
          · exact (ih.mp hr) h2
    · intro h
      simp only [List.map_cons, List.mem_cons] at h
      push_neg at h
      simp only [dictGet]
      rw [ih.mpr h.2, if_neg (fun e => h.1 e.symm)]

/-! ### Homogeneous populations and the discovery pipeline -/

lemma typeName_num (a b : PyVal) (h : typeName b = typeName a) (ha : isNum a = true) :
    isNum b = true := by
  cases a <;> cases b <;> simp_all [typeName, isNum]

lemma typeName_text (a b : PyVal) (h : typeName b = typeName a) (ha : isText a = true) :
    isText b = true := by
  cases a <;> cases b <;> simp_all [typeName, isText]

lemma comparablePop_of_homog : ∀ (L : List PyVal),
    (∀ a ∈ L, ∀ b ∈ L, typeName a = typeName b) → comparablePop L = true := by
  intro L h
  cases L with
  | nil => rfl
  | cons a t =>
    unfold comparablePop
    by_cases hn : isNum a = true
    · have hall : (a :: t).all isNum = true :=
        List.all_eq_true.mpr (fun b hb =>
          typeName_num a b (h b hb a (List.mem_cons_self a t)) hn)
      rw [hall, Bool.true_or]
    · have ht : isText a = true := by cases a <;> simp_all [isNum, isText]
      have hall : (a :: t).all isText = true :=
        List.all_eq_true.mpr (fun b hb =>
          typeName_text a b (h b hb a (List.mem_cons_self a t)) ht)
      rw [hall, Bool.or_true]

lemma sortLabels_ok_of_homog (L : List PyVal)
    (h : ∀ a ∈ L, ∀ b ∈ L, typeName a = typeName b) :
    sortLabels L = Except.ok (pySorted (distinctFirstSeen L)) := by
  unfold sortLabels
  rw [if_pos (comparablePop_of_homog L h)]

lemma sortLabels_ok_props (L out : List PyVal) (h : sortLabels L = Except.ok out) :
    out.Nodup ∧ (∀ x, x ∈ out ↔ x ∈ L) ∧
      List.Pairwise (fun x y => pyLEb x y = true) out := by
  unfold sortLabels at h
  by_cases hc : comparablePop L = true
  · rw [if_pos hc] at h
    cases h
    refine ⟨(pySorted_perm _).symm.nodup (distinctFirstSeen_nodup L),
      fun x => ?_, pySorted_pairwise _⟩
    rw [(pySorted_perm _).mem_iff, mem_distinctFirstSeen]
  · rw [if_neg hc] at h
    cases h

lemma sortLabels_eq_of_mem (l₁ l₂ : List PyVal)
    (hm₁ : ∀ x ∈ l₁, x ∈ l₂) (hm₂ : ∀ x ∈ l₂, x ∈ l₁)
    (hhom : ∀ a ∈ l₁, ∀ b ∈ l₁, typeName a = typeName b) :
    sortLabels l₁ = sortLabels l₂ := by
  have hhom₂ : ∀ a ∈ l₂, ∀ b ∈ l₂, typeName a = typeName b :=
    fun a ha b hb => hhom a (hm₂ a ha) b (hm₂ b hb)
  rw [sortLabels_ok_of_homog l₁ hhom, sortLabels_ok_of_homog l₂ hhom₂]
  have hperm : (distinctFirstSeen l₁).Perm (distinctFirstSeen l₂) :=
    (List.perm_ext_iff_of_nodup (distinctFirstSeen_nodup l₁)
        (distinctFirstSeen_nodup l₂)).mpr (fun x => by
      rw [mem_distinctFirstSeen, mem_distinctFirstSeen]
      exact ⟨hm₁ x, hm₂ x⟩)
  have heq : pySorted (distinctFirstSeen l₁) = pySorted (distinctFirstSeen l₂) := by
    apply sorted_perm_eq _ _ (pySorted_pairwise _) (pySorted_pairwise _)
    · exact (pySorted_perm _).trans (hperm.trans (pySorted_perm _).symm)
    · intro a ha b hb h1 h2
      have ha' : a ∈ l₁ := (mem_distinctFirstSeen l₁ a).mp ((pySorted_perm _).subset ha)
      have hb' : b ∈ l₁ := (mem_distinctFirstSeen l₁ b).mp ((pySorted_perm _).subset hb)
      exact pyLEb_antisymm_of_same_type a b (hhom a ha' b hb') h1 h2
  rw [heq]

lemma enumEncoder_fst (ls : List PyVal) : (enumEncoder ls).map Prod.fst = ls := by
  unfold enumEncoder
  rw [List.map_map]
  have h : (Prod.fst ∘ fun p : Nat × PyVal => (p.2, PyVal.pyInt (p.1 : Int))) =
      Prod.snd := by
    funext p; rfl
  rw [h, List.enum_map_snd]

lemma enumEncoder_snd (ls : List PyVal) :
    (enumEncoder ls).map Prod.snd =
      (List.range ls.length).map (fun i : Nat => PyVal.pyInt (Int.ofNat i)) := by
  unfold enumEncoder
  rw [← List.enum_map_fst ls, List.map_map, List.map_map]
  rfl

lemma enumEncoder_length (ls : List PyVal) : (enumEncoder ls).length = ls.length := by
  simp [enumEncoder]

lemma typeMapOf_cons (v : PyVal) (vs : List PyVal) :
    typeMapOf (v :: vs) = (pyStrOf v, typeName v) :: typeMapOf vs := rfl

lemma strDictGet_typeMapOf_mem : ∀ (ks : List PyVal) (s t : String),
    strDictGet (typeMapOf ks) s = some t →
    ∃ k ∈ ks, pyStrOf k = s ∧ typeName k = t := by
  intro ks
  induction ks with
  | nil => intro s t h; cases h
  | cons a rest ih =>
    intro s t h
    rw [typeMapOf_cons] at h
    simp only [strDictGet] at h
    cases hr : strDictGet (typeMapOf rest) s with
    | some v =>
      rw [hr] at h
      cases h
      rcases ih s _ hr with ⟨k, hk, h1, h2⟩
      exact ⟨k, List.mem_cons_of_mem a hk, h1, h2⟩
    | none =>
      rw [hr] at h
      by_cases hs : pyStrOf a = s
      · rw [if_pos hs] at h
        cases h
        exact ⟨a, List.mem_cons_self a rest, hs, rfl⟩
      · rw [if_neg hs] at h
        cases h

lemma strDictGet_typeMapOf_isSome : ∀ (ks : List PyVal) (k : PyVal), k ∈ ks →
    ∃ t, strDictGet (typeMapOf ks) (pyStrOf k) = some t := by
  intro ks
  induction ks with
  | nil => intro k h; cases h
  | cons a rest ih =>
    intro k hk
    rw [typeMapOf_cons]
    simp only [strDictGet]
    cases hr : strDictGet (typeMapOf rest) (pyStrOf k) with
    | some v => exact ⟨v, rfl⟩
    | none =>
      rcases List.mem_cons.mp hk with hka | hkr
      · rw [if_pos (by rw [hka])]
        exact ⟨typeName a, rfl⟩
      · rcases ih k hkr with ⟨t, ht⟩
        rw [ht] at hr
        cases hr

lemma strDictGet_typeMapOf_homog (ks : List PyVal) (k : PyVal) (hk : k ∈ ks)
    (hhom : ∀ a ∈ ks, ∀ b ∈ ks, typeName a = typeName b) :
    strDictGet (typeMapOf ks) (pyStrOf k) = some (typeName k) := by
  rcases strDictGet_typeMapOf_isSome ks k hk with ⟨t, ht⟩
  rcases strDictGet_typeMapOf_mem ks (pyStrOf k) t ht with ⟨k', hk', _, h2⟩
  rw [ht, ← h2, hhom k' hk' k hk]

lemma loadTyped_self (v : PyVal) : loadTyped v (typeName v) = Except.ok v := by
  cases v <;> rfl

lemma get_label_encoder_discovery (self : LabelTransformer) (data : DTable)
    (L sorted : List PyVal)
    (henc : self.label_encoder = none) (hkt : self.encoder_key_type = none)
    (hL : datasetLabels data = Except.ok L)
    (hs : sortLabels L = Except.ok sorted)
    (hhomS : ∀ a ∈ sorted, ∀ b ∈ sorted, typeName a = typeName b) :
    self.get_label_encoder data =
      Except.ok ({ self with
          label_encoder := some (enumEncoder sorted),
          encoder_key_type := some (typeMapOf sorted),
          encoder_value_type :=
            some ((enumEncoder sorted).map (fun p => (pyStrOf p.1, typeName p.2))) },
        enumEncoder sorted) := by
  have hmap : mapValuesE (fun p : PyVal × PyVal => do
      let tag ← orKeyErrorStr (strDictGet (typeMapOf sorted) (pyStrOf p.1))
      let k ← loadTyped p.1 tag
      Except.ok (k, p.2)) (enumEncoder sorted) = Except.ok (enumEncoder sorted) := by
    apply mapValuesE_id
    intro p hp
    have hp1 : p.1 ∈ sorted := by
      rw [← enumEncoder_fst sorted]
      exact List.mem_map_of_mem Prod.fst hp
    rw [strDictGet_typeMapOf_homog sorted p.1 hp1 hhomS]
    show (Except.ok (typeName p.1) >>=
        fun tag => loadTyped p.1 tag >>= fun k => Except.ok (k, p.2)) = Except.ok p
    rw [except_bind_ok, loadTyped_self, except_bind_ok]
  unfold LabelTransformer.get_label_encoder
  simp only [henc, hL, hs, except_bind_ok, hkt, enumEncoder_fst]
  rw [hmap, except_bind_ok]

/-! ### Concrete fixtures (the worked example of the spec and witnesses) -/

def catDogFishTable : DTable :=
  { rows := [ .inst { features := [1], label := .pyStr "dog" },
              .inst { features := [2], label := .pyStr "cat" },
              .inst { features := [3], label := .pyStr "fish" },
              .inst { features := [4], label := .pyStr "dog" } ],
    schema := "header" }

def catDogFishLabels : List PyVal :=
  [.pyStr "dog", .pyStr "cat", .pyStr "fish", .pyStr "dog"]

def catDogFishShuffled : DTable :=
  { rows := [ .inst { features := [3], label := .pyStr "fish" },
              .inst { features := [4], label := .pyStr "dog" },
              .inst { features := [2], label := .pyStr "cat" } ],
    schema := "other" }

def catDogFishEncoder : Dict :=
  [(.pyStr "cat", .pyInt 0), (.pyStr "dog", .pyInt 1), (.pyStr "fish", .pyInt 2)]

def catDogFishFitState : LabelTransformer :=
  { label_encoder := some catDogFishEncoder,
    label_list := none,
    need_run := true,
    encoder_key_type := some [("cat", "str"), ("dog", "str"), ("fish", "str")],
    encoder_value_type := some [("cat", "int"), ("dog", "int"), ("fish", "int")] }

def catDogFishFitRows : List Record :=
  [ .inst { features := [1], label := .pyInt 1 },
    .inst { features := [2], label := .pyInt 0 },
    .inst { features := [3], label := .pyInt 2 },
    .inst { features := [4], label := .pyInt 1 } ]

def predRecord : PredictResult :=
  { true_label := .pyStr "cat", predict_label := .pyStr "cat",
    predict_score := 1, predict_detail := [(.pyStr "cat", 1)] }

def predOutRecord : PredictResult :=
  { true_label := .pyInt 0, predict_label := .pyInt 0,
    predict_score := 1, predict_detail := [(.pyInt 0, 1)] }

def predTable : DTable := { rows := [.pred predRecord], schema := "p" }

def predFitState : LabelTransformer :=
  { label_encoder := some [(.pyStr "cat", .pyInt 0)],
    label_list := none, need_run := true,
    encoder_key_type := some [("cat", "str")],
    encoder_value_type := some [("cat", "int")] }

/-! ### The claims -/

/-- C1 (code bug): the round-trip law `load(export(E)) == E` fails in the
code because `_get_param` iterates `self.label_encoder` itself — a dict
iterates its KEYS — instead of `self.label_encoder.items()`, so `for k, v`
unpacks each raw key; `export_model` raises before any param record exists
(here, on the very encoder the component builds by `fit` on the
cat/dog/fish dataset, unpacking the 3-character key "cat" raises
ValueError; integer or float keys raise TypeError).  The sibling
comprehensions in `get_label_encoder` and `load_model` all iterate
`.items()`, so the round trip is the evident intent and the code is in
error. -/
theorem exportModel_raises_after_fit :
    initState.fit catDogFishTable =
      Except.ok (catDogFishFitState, { catDogFishTable with rows := catDogFishFitRows }) ∧
    catDogFishFitState.export_model =
      Except.error "ValueError: too many values to unpack" :=
  ⟨by decide, by decide⟩

/-- C5 counterexample: the discovered encoder is cat↦0, dog↦1, fish↦2
exactly as the claim states, but a TrainingRecord labelled "dog" transforms
Forward into label 1 — not 2 as the claim asserts. -/
theorem worked_example_dog_not_two :
    initState.get_label_encoder catDogFishTable =
      Except.ok (catDogFishFitState, catDogFishEncoder) ∧
    replace_instance_label { features := [1], label := .pyStr "dog" } catDogFishEncoder =
      Except.ok { features := [1], label := .pyInt 1 } ∧
    PyVal.pyInt 1 ≠ PyVal.pyInt 2 :=
  ⟨by decide, by decide, by decide⟩

/-- C5 (amended): when the discovered raw labels are cat, dog, fish, the
built encoder is cat↦0, dog↦1, fish↦2, and a TrainingRecord whose label is
"dog" transforms (Forward) into a record whose label is 1. -/
theorem worked_example_encoder_dog_one :
    initState.get_label_encoder catDogFishTable =
      Except.ok (catDogFishFitState, catDogFishEncoder) ∧
    replace_instance_label { features := [1], label := .pyStr "dog" } catDogFishEncoder =
      Except.ok { features := [1], label := .pyInt 1 } :=
  ⟨by decide, by decide⟩

/-- C7: invoking `transform` while no encoder exists (`label_encoder` is
`None`) raises immediately; no dataset is returned and the data is never
passed through unchanged. -/
theorem transform_without_encoder_raises
    (self : LabelTransformer) (data : DTable)
    (h : self.label_encoder = none) :
    self.transform data =
      Except.error "Input Label Encoder is None. Label Transform aborted." := by
  unfold LabelTransformer.transform
  rw [h]

/-- Witness for C7 on a fresh component and the cat/dog/fish dataset. -/
theorem transform_without_encoder_raises_witness :
    initState.transform catDogFishTable =
      Except.error "Input Label Encoder is None. Label Transform aborted." :=
  transform_without_encoder_raises initState catDogFishTable rfl

/-- C10: `load_value_to_type` passes a `None` value through as `None` for
EVERY tag string — recognized or not — because the `None` test precedes tag
dispatch; the unknown-tag error can only be raised for non-`None` values. -/
theorem none_value_loads_none (t : String) :
    load_value_to_type none t = Except.ok none := rfl

/-- C3: on a fresh component (no explicit encoder supplied), the encoder
discovered from a dataset assigns pairwise-distinct ids to the distinct raw
labels — its key list is duplicate-free and holds exactly the dataset's
labels — and the assigned ids are exactly the contiguous range 0..n-1,
where n is the number of distinct raw labels.  The label population is
assumed homogeneous in type, as the spec's data model assumes of every
dataset. -/
theorem discovered_encoder_is_bijection
    (self : LabelTransformer) (data : DTable) (L : List PyVal)
    (st' : LabelTransformer) (enc : Dict)
    (henc : self.label_encoder = none) (hkt : self.encoder_key_type = none)
    (hL : datasetLabels data = Except.ok L)
    (hhom : ∀ a ∈ L, ∀ b ∈ L, typeName a = typeName b)
    (hok : self.get_label_encoder data = Except.ok (st', enc)) :
    (enc.map Prod.fst).Nodup ∧
    (∀ x, x ∈ enc.map Prod.fst ↔ x ∈ L) ∧
    enc.map Prod.snd =
      (List.range enc.length).map (fun i : Nat => PyVal.pyInt (Int.ofNat i)) := by
  have hsort := sortLabels_ok_of_homog L hhom
  have hprops := sortLabels_ok_props L (pySorted (distinctFirstSeen L)) hsort
  have hhomS : ∀ a ∈ pySorted (distinctFirstSeen L),
      ∀ b ∈ pySorted (distinctFirstSeen L), typeName a = typeName b := by
    intro a ha b hb
    exact hhom a ((hprops.2.1 a).mp ha) b ((hprops.2.1 b).mp hb)
  rw [get_label_encoder_discovery self data L (pySorted (distinctFirstSeen L))
    henc hkt hL hsort hhomS] at hok
  injection hok with hpair
  have hencEq : enc = enumEncoder (pySorted (distinctFirstSeen L)) :=
    (congrArg Prod.snd hpair).symm
  subst hencEq
  refine ⟨?_, ?_, ?_⟩
  · rw [enumEncoder_fst]
    exact hprops.1
  · intro x
    rw [enumEncoder_fst]
    exact hprops.2.1 x
  · rw [enumEncoder_length, enumEncoder_snd]

/-- Witness for C3 at the cat/dog/fish dataset of the worked example. -/
theorem discovered_encoder_is_bijection_witness :
    (catDogFishEncoder.map Prod.fst).Nodup ∧
    (PyVal.pyStr "dog" ∈ catDogFishEncoder.map Prod.fst ↔
      PyVal.pyStr "dog" ∈ catDogFishLabels) ∧
    catDogFishEncoder.map Prod.snd =
      (List.range catDogFishEncoder.length).map
        (fun i : Nat => PyVal.pyInt (Int.ofNat i)) := by
  have h := discovered_encoder_is_bijection initState catDogFishTable
    catDogFishLabels catDogFishFitState catDogFishEncoder
    rfl rfl (by decide) (by decide) (by decide)
  exact ⟨h.1, h.2.1 (PyVal.pyStr "dog"), h.2.2⟩

/-- C4: encoder discovery is deterministic: two runs over datasets carrying
the same population of distinct raw labels — whatever the record order or
partitioning — produce identical results, because ids are assigned in
sorted order of the labels, not first-seen order.  The (homogeneous) label
populations are compared as sets. -/
theorem discovery_order_independent
    (self : LabelTransformer) (d₁ d₂ : DTable) (L₁ L₂ : List PyVal)
    (henc : self.label_encoder = none)
    (h₁ : datasetLabels d₁ = Except.ok L₁)
    (h₂ : datasetLabels d₂ = Except.ok L₂)
    (hm₁ : ∀ x ∈ L₁, x ∈ L₂) (hm₂ : ∀ x ∈ L₂, x ∈ L₁)
    (hhom : ∀ a ∈ L₁, ∀ b ∈ L₁, typeName a = typeName b) :
    self.get_label_encoder d₁ = self.get_label_encoder d₂ := by
  unfold LabelTransformer.get_label_encoder
  simp only [henc, h₁, h₂, except_bind_ok]
  rw [sortLabels_eq_of_mem L₁ L₂ hm₁ hm₂ hhom]

/-- Witness for C4: the cat/dog/fish dataset and a reordered, differently
duplicated dataset with the same distinct labels discover identically. -/
theorem discovery_order_independent_witness :
    initState.get_label_encoder catDogFishTable =
      initState.get_label_encoder catDogFishShuffled :=
  discovery_order_independent initState catDogFishTable catDogFishShuffled
    catDogFishLabels [.pyStr "fish", .pyStr "dog", .pyStr "cat"]
    rfl (by decide) (by decide) (by decide) (by decide) (by decide)

/-- C2 counterexample: on a PredictionResult dataset, `fit` rewrites labels
through the freshly discovered FORWARD map — the record's "cat" becomes the
id 0 — whereas rewriting the same dataset through the Inverse map (the
swapped encoder), as the claim asserts `fit` does, is not what happened:
that rewrite raises KeyError, because the raw label "cat" is not a key of
the inverse map at all. -/
theorem fit_predict_forward_counterexample :
    initState.fit predTable =
      Except.ok (predFitState, { predTable with rows := [.pred predOutRecord] }) ∧
    transform_data_label predTable (swapDict [(.pyStr "cat", .pyInt 0)]) =
      Except.error "KeyError" :=
  ⟨by decide, by decide⟩

/-- C2 (amended): `transform` rewrites TrainingRecord datasets Forward
(through the stored encoder) and PredictionResult datasets Inverse (through
the encoder with keys and values swapped); `fit`, by contrast, always
rewrites Forward through the encoder `get_label_encoder` just returned,
regardless of the record kind. -/
theorem transform_inverse_fit_forward :
    (∀ (self : LabelTransformer) (enc : Dict) (data : DTable),
      self.label_encoder = some enc →
        (firstIsInstance data = true →
          self.transform data =
            (transform_data_label data enc).map
              (fun rows => { data with rows := rows })) ∧
        (firstIsInstance data = false →
          self.transform data =
            (transform_data_label data (swapDict enc)).map
              (fun rows => { data with rows := rows }))) ∧
    (∀ (self : LabelTransformer) (data : DTable)
        (st1 : LabelTransformer) (enc : Dict),
      self.get_label_encoder data = Except.ok (st1, enc) →
      self.fit data =
        (transform_data_label data enc).map
          (fun rows => ({ st1 with label_encoder := some enc },
            { data with rows := rows }))) := by
  constructor
  · intro self enc data h
    constructor
    · intro hfi
      simp [LabelTransformer.transform, h, hfi]
    · intro hfi
      simp [LabelTransformer.transform, h, hfi]
  · intro self data st1 enc hg
    unfold LabelTransformer.fit
    rw [hg, except_bind_ok]
    cases h' : transform_data_label data enc with
    | error e => simp [h', except_bind_error, Except.map]
    | ok rows => simp [h', except_bind_ok, Except.map]

/-- Witness for C2 (amended): a component holding the cat↦0 encoder
transforms the prediction dataset through the swapped map, and `fit` on
that dataset rewrites through the forward map it just discovered. -/
theorem transform_inverse_fit_forward_witness :
    predFitState.transform predTable =
      (transform_data_label predTable (swapDict [(.pyStr "cat", .pyInt 0)])).map
        (fun rows => { predTable with rows := rows }) ∧
    initState.fit predTable =
      (transform_data_label predTable [(.pyStr "cat", .pyInt 0)]).map
        (fun rows => ({ predFitState with
            label_encoder := some [(.pyStr "cat", .pyInt 0)] },
          { predTable with rows := rows })) :=
  ⟨(transform_inverse_fit_forward.1 predFitState [(.pyStr "cat", .pyInt 0)]
      predTable rfl).2 rfl,
   transform_inverse_fit_forward.2 initState predTable predFitState
      [(.pyStr "cat", .pyInt 0)] (by decide)⟩

/-- C6: for every active-direction map, a record carrying a label value
that is not a key of the map — the Instance label, or the true label,
predicted label, or any predicted_detail key of a prediction tuple — makes
the per-record rewrite raise (KeyError) and produce no output record; no
default value is ever substituted. -/
theorem unmapped_label_raises (enc : Dict) :
    (∀ inst : Instance, dictGet enc inst.label = none →
      ∃ e, replace_instance_label inst enc = Except.error e) ∧
    (∀ (pr : PredictResult) (l : PyVal),
      (l = pr.true_label ∨ l = pr.predict_label ∨
        l ∈ pr.predict_detail.map Prod.fst) →
      dictGet enc l = none →
      ∃ e, replace_predict_label pr enc = Except.error e) := by
  constructor
  · intro inst h
    refine ⟨"KeyError", ?_⟩
    unfold replace_instance_label
    rw [h]
    rfl
  · intro pr l hl hnone
    apply except_error_of_not_ok
    intro b hb
    unfold replace_predict_label at hb
    cases h1 : dictGet enc pr.true_label with
    | none => rw [h1] at hb; simp [orKeyError, except_bind_error] at hb
    | some v1 =>
      rw [h1, show orKeyError (some v1) = Except.ok v1 from rfl,
        except_bind_ok] at hb
      cases h2 : dictGet enc pr.predict_label with
      | none => rw [h2] at hb; simp [orKeyError, except_bind_error] at hb
      | some v2 =>
        rw [h2, show orKeyError (some v2) = Except.ok v2 from rfl,
          except_bind_ok] at hb
        cases h3 : mapValuesE (replaceDetailPair enc) pr.predict_detail with
        | error e => rw [h3, except_bind_error] at hb; cases hb
        | ok detail' =>
          rcases hl with hl1 | hl2 | hmem
          · rw [hl1, h1] at hnone; cases hnone
          · rw [hl2, h2] at hnone; cases hnone
          · rcases List.mem_map.mp hmem with ⟨p, hp, hpl⟩
            rcases mapValuesE_ok_of_mem h3 hp with ⟨q, hq⟩
            unfold replaceDetailPair at hq
            rw [hpl, hnone] at hq
            simp [orKeyError, except_bind_error] at hq

/-- Witness for C6: the label "bird" is absent from the cat/dog/fish
encoder, so the Instance rewrite and the prediction rewrite (here with
"bird" among the predicted_detail keys) both raise. -/
theorem unmapped_label_raises_witness :
    (∃ e, replace_instance_label { features := [], label := .pyStr "bird" }
      catDogFishEncoder = Except.error e) ∧
    (∃ e, replace_predict_label
      { true_label := .pyStr "cat", predict_label := .pyStr "cat",
        predict_score := 1, predict_detail := [(.pyStr "bird", 1)] }
      catDogFishEncoder = Except.error e) := by
  have h := unmapped_label_raises catDogFishEncoder
  exact ⟨h.1 { features := [], label := .pyStr "bird" } (by decide),
    h.2 { true_label := .pyStr "cat", predict_label := .pyStr "cat",
          predict_score := 1, predict_detail := [(.pyStr "bird", 1)] }
      (.pyStr "bird") (Or.inr (Or.inr (by decide))) (by decide)⟩

lemma loadTyped_unknown_tag (v : PyVal) (t : String) (ht : t ∉ recognizedTags) :
    loadTyped v t = Except.error ("unknown value type: " ++ t) := by
  have h' : t ∉ intTags ∧ t ∉ floatTags ∧ t ∉ textTags := by
    unfold recognizedTags at ht
    rw [List.mem_append, List.mem_append] at ht
    push_neg at ht
    exact ⟨ht.1.1, ht.1.2, ht.2⟩
  unfold loadTyped
  rw [if_neg h'.1, if_neg h'.2.1, if_neg h'.2.2]

/-- C8: a type tag outside the recognized set (int/int64/long,
float/float64/double, str/_str) makes `load_value_to_type` raise on any
persisted (string, hence non-None) value rather than guess a type, and
`load_model` meeting such a tag on an encoder entry fails as a whole — the
component's encoder is not assigned any partially reconstructed value. -/
theorem unknown_tag_fatal :
    (∀ s t : String, t ∉ recognizedTags →
      load_value_to_type (some (.pyStr s)) t =
        Except.error ("unknown value type: " ++ t)) ∧
    (∀ (self : LabelTransformer) (meta : LabelTransformMetaPb)
        (param : LabelTransformParamPb) (k v t : String),
      (k, v) ∈ param.label_encoder →
      strDictGet param.encoder_key_type k = some t →
      t ∉ recognizedTags →
      ∃ e, self.load_model meta param = Except.error e) := by
  constructor
  · intro s t ht
    show (loadTyped (.pyStr s) t).map some = _
    rw [loadTyped_unknown_tag (.pyStr s) t ht]
    rfl
  · intro self meta param k v t hkv htag ht
    apply except_error_of_not_ok
    intro st hst
    unfold LabelTransformer.load_model at hst
    cases h3 : mapValuesE (loadEncoderEntry param) param.label_encoder with
    | error e => rw [h3, except_bind_error] at hst; cases hst
    | ok encl =>
      rcases mapValuesE_ok_of_mem h3 hkv with ⟨q, hq⟩
      unfold loadEncoderEntry at hq
      rw [htag, show orKeyErrorStr (some t) = Except.ok t from rfl,
        except_bind_ok, loadTyped_unknown_tag (.pyStr (k, v).1) t ht,
        except_bind_error] at hq
      cases hq

/-- Witness for C8: the tag "int32" is not recognized; loading the value
"7" under it raises, and a param record whose key-tag map carries it makes
`load_model` fail. -/
theorem unknown_tag_fatal_witness :
    load_value_to_type (some (.pyStr "7")) "int32" =
      Except.error ("unknown value type: " ++ "int32") ∧
    (∃ e, initState.load_model { need_run := true }
      { label_encoder := [("7", "0")],
        encoder_key_type := [("7", "int32")],
        encoder_value_type := [("7", "int")] } = Except.error e) :=
  ⟨unknown_tag_fatal.1 "7" "int32" (by decide),
   unknown_tag_fatal.2 initState { need_run := true }
     { label_encoder := [("7", "0")],
       encoder_key_type := [("7", "int32")],
       encoder_value_type := [("7", "int")] }
     "7" "0" "int32" (by decide) (by decide) (by decide)⟩

/-- C9: a successful prediction rewrite leaves `predict_score` unchanged
and every score inside `predict_detail` unchanged; only `true_label`,
`predict_label` and the detail keys go through the active-direction map.
(The rewrite is a pure function of the input tuple — the source deep-copies
the tuple, so the input record itself is never mutated.) -/
theorem predict_rewrite_frame (pr : PredictResult) (enc : Dict)
    (out : PredictResult)
    (h : replace_predict_label pr enc = Except.ok out) :
    out.predict_score = pr.predict_score ∧
    out.predict_detail.map Prod.snd = pr.predict_detail.map Prod.snd ∧
    dictGet enc pr.true_label = some out.true_label ∧
    dictGet enc pr.predict_label = some out.predict_label ∧
    List.Forall₂ (fun p q => dictGet enc p.1 = some q.1 ∧ q.2 = p.2)
      pr.predict_detail out.predict_detail := by
  unfold replace_predict_label at h
  cases h1 : dictGet enc pr.true_label with
  | none => rw [h1] at h; simp [orKeyError, except_bind_error] at h
  | some v1 =>
    rw [h1, show orKeyError (some v1) = Except.ok v1 from rfl,
      except_bind_ok] at h
    cases h2 : dictGet enc pr.predict_label with
    | none => rw [h2] at h; simp [orKeyError, except_bind_error] at h
    | some v2 =>
      rw [h2, show orKeyError (some v2) = Except.ok v2 from rfl,
        except_bind_ok] at h
      cases h3 : mapValuesE (replaceDetailPair enc) pr.predict_detail with
      | error e => rw [h3, except_bind_error] at h; cases h
      | ok detail' =>
        rw [h3, except_bind_ok] at h
        cases h
        have hf' : List.Forall₂
            (fun p q => dictGet enc p.1 = some q.1 ∧ q.2 = p.2)
            pr.predict_detail detail' := by
          refine (mapValuesE_ok_forall₂ h3).imp ?_
          intro p q hpq
          unfold replaceDetailPair at hpq
          cases hd : dictGet enc p.1 with
          | none => rw [hd] at hpq; simp [orKeyError, except_bind_error] at hpq
          | some kk =>
            rw [hd, show orKeyError (some kk) = Except.ok kk from rfl,
              except_bind_ok] at hpq
            cases hpq
            exact ⟨rfl, rfl⟩
        exact ⟨rfl, forall₂_snd_eq hf', rfl, rfl, hf'⟩

/-- Witness for C9: the single-record prediction fixture rewritten through
the cat↦0 map keeps its score 1 both at top level and inside the detail. -/
theorem predict_rewrite_frame_witness :
    predOutRecord.predict_score = predRecord.predict_score ∧
    predOutRecord.predict_detail.map Prod.snd =
      predRecord.predict_detail.map Prod.snd ∧
    dictGet [(.pyStr "cat", .pyInt 0)] predRecord.true_label =
      some predOutRecord.true_label ∧
    dictGet [(.pyStr "cat", .pyInt 0)] predRecord.predict_label =
      some predOutRecord.predict_label ∧
    List.Forall₂
      (fun p q => dictGet [(.pyStr "cat", .pyInt 0)] p.1 = some q.1 ∧ q.2 = p.2)
      predRecord.predict_detail predOutRecord.predict_detail :=
  predict_rewrite_frame predRecord [(.pyStr "cat", .pyInt 0)] predOutRecord
    (by decide)

/-- Witness for C10 at an unrecognized tag. -/
theorem none_value_loads_none_witness :
    load_value_to_type none "int32" = Except.ok none :=
  none_value_loads_none "int32"
